import Mathlib

/-!
Verification of app-o11y-config-manager: request handlers, plugin construction and resource
watcher.

A shallow embedding of

* `pkg/plugin/handler_config.go` (the five CRUD handlers of the `Config` kind),
* `pkg/plugin/plugin.go` (`New`, which wires middlewares and routes),
* `plugin/pkg/main.go` (`PluginService`, the only `Service` of the repository),
* `pkg/watchers/watcher_config.go` (`ConfigWatcher`).

Conventions of the embedding.

* Go strings are Lean strings.
* A Go `error` value is a `GoError`: its `Error()` text and, when its dynamic type has a
  `StatusCode() int` method (the local interface `errWithStatusCode`), that code.
* The `Service` and the `ConfigService` are interfaces whose implementations may hold state, so
  their methods are functions on an explicit store state `σ`; every handler returns the state it
  leaves behind together with the ordered list of calls it made (`Event`).
* Tracing spans (`tracing.DefaultTracer().Start`, `span.End`) and the trace id attached to log
  lines are observability effects that no handler result depends on; they are not recorded.
  Error log lines are recorded in the event list.
-/

namespace O11yConfig

/-! ## Data model -/

/-- The part of `resource.StaticMetadata` that the sources read or write. -/
structure StaticMetadata where
  Namespace : String
  Name : String
  Kind : String
deriving DecidableEq, Repr

/-- The Go type `resource.Identifier` as the handlers build it. -/
structure Identifier where
  Namespace : String
  Name : String
deriving DecidableEq, Repr

/-- Modelled from the spec: the generated type `config.Object`
(`pkg/generated/resource/config/v1`) is not among the sources. The spec's data model gives a
Config object an identifier (here the static metadata), metadata made of an opaque version
token, labels and annotations, and a domain-specific payload `S` that is opaque to this core. -/
structure Object (S : Type) where
  StaticMeta : StaticMetadata
  ResourceVersion : String
  Labels : List (String × String)
  Annotations : List (String × String)
  Spec : S
deriving DecidableEq, Repr

/-- The Go type `resource.TypedStoreList[*config.Object]`, reduced to its items. -/
structure TypedStoreList (S : Type) where
  Items : List (Object S)
deriving DecidableEq, Repr

/-- A Go `error` value: the text of `Error()` and the result of `StatusCode()` when the dynamic
type implements `errWithStatusCode`. -/
structure GoError where
  Error : String
  StatusCode : Option Int
deriving DecidableEq, Repr

/-- The error a handler hands to the router: either a fresh `plugin.NewError(code, msg)` or the
error value it received from a callee, returned as it is. -/
inductive HandlerError where
  | pluginError (code : Int) (msg : String)
  | unchanged (e : GoError)
deriving DecidableEq, Repr

/-- The Go type `router.JSONResponse` (an `any`): the untyped `nil`, a `*config.Object` (possibly
a nil pointer) or a `*resource.TypedStoreList` (possibly a nil pointer). -/
inductive JSONResponse (S : Type) where
  | nil
  | object (o : Option (Object S))
  | list (l : Option (TypedStoreList S))
deriving DecidableEq, Repr

/-- Calls and log lines a handler makes, in program order. -/
inductive Event (S : Type) where
  | getConfigService
  | list (ns : String) (filters : List String)
  | get (id : Identifier)
  | add (obj : Object S)
  | update (id : Identifier) (obj : Object S)
  | delete (id : Identifier)
  | logError (msg : String)
deriving DecidableEq, Repr

/-- Whether an event is one of the five `ConfigService` operations. -/
def Event.isConfigServiceOp {S : Type} : Event S → Bool
  | .list _ _ => true
  | .get _ => true
  | .add _ => true
  | .update _ _ => true
  | .delete _ => true
  | .getConfigService => false
  | .logError _ => false

/-- The interface `ConfigService` over a store state `σ`. Each method returns its Go result
pair and the state it leaves. -/
structure ConfigService (σ S : Type) where
  Get : Identifier → σ → (Option (Object S) × Option GoError) × σ
  Add : Object S → σ → (Option (Object S) × Option GoError) × σ
  Update : Identifier → Object S → σ → (Option (Object S) × Option GoError) × σ
  Delete : Identifier → σ → Option GoError × σ
  List : String → List String → σ → (Option (TypedStoreList S) × Option GoError) × σ

/-- The interface `Service`: `GetConfigService` yields a `ConfigService` or fails. -/
structure Service (σ S : Type) where
  GetConfigService : σ → Except GoError (ConfigService σ S) × σ

/-- The struct `PluginService` of `plugin/pkg/main.go`: it holds one `ConfigService`. -/
structure PluginService (σ S : Type) where
  configService : ConfigService σ S

/-- The method `PluginService.GetConfigService`: `return s.configService, nil`. -/
def PluginService.GetConfigService {σ S : Type} (s : PluginService σ S) :
    σ → Except GoError (ConfigService σ S) × σ :=
  fun st => (.ok s.configService, st)

/-- The `PluginService` seen through the interface `Service`. -/
def PluginService.toService {σ S : Type} (s : PluginService σ S) : Service σ S :=
  ⟨s.GetConfigService⟩

/-! ## Requests -/

/-- The Go type `url.Values`: keys with their values in order. -/
abbrev Values := List (String × List String)

/-- The method `url.Values.Get`: the first value of the key, the empty string when there is
none. -/
def Values.Get (v : Values) (key : String) : String :=
  match v.lookup key with
  | some (x :: _) => x
  | _ => ""

/-- The Go type `router.Vars`: the path variables bound by the matched route. -/
abbrev Vars := List (String × String)

/-- The method `router.Vars.MustGet`: the value bound to the key. The result is `none` when the
key is unbound, a case the router excludes for routes whose pattern names the variable. -/
def Vars.MustGet (v : Vars) (key : String) : Option String :=
  v.lookup key

/-- The Go type `router.JSONRequest` as the handlers use it: the parsed query of the URL, the
path variables, and the outcome of `io.ReadAll(req.Body)`. -/
structure JSONRequest where
  Query : Values
  Vars : Vars
  Body : Except GoError String

/-- The call `json.Unmarshal(body, &t)` into a zero `config.Object`: the decoder belongs to the
generated package, so it is a parameter of the handlers. -/
abbrev Unmarshal (S : Type) := String → Except GoError (Object S)

/-! ## `strings.Split` -/

/-- Splitting a character list at every occurrence of `sep`. -/
def splitChars (sep : Char) : List Char → List (List Char)
  | [] => [[]]
  | c :: cs =>
    if c = sep then [] :: splitChars sep cs
    else
      match splitChars sep cs with
      | [] => [[c]]
      | p :: ps => (c :: p) :: ps

/-- The Go function `strings.Split` for a one-character separator, which is how the list
handler calls it. -/
def stringsSplit (s : String) (sep : Char) : List String :=
  (splitChars sep s.data).map String.mk

/-! ## HTTP status codes -/

/-- The constant `http.StatusBadRequest`. -/
def StatusBadRequest : Int := 400

/-- The constant `http.StatusInternalServerError`. -/
def StatusInternalServerError : Int := 500

/-- The constant `http.StatusOK`. -/
def StatusOK : Int := 200

/-- The constant `http.StatusCreated`. -/
def StatusCreated : Int := 201

/-- The constant `http.StatusNoContent`. -/
def StatusNoContent : Int := 204

/-! ## Router registrations (`plugin.go`) -/

/-- The four middlewares `New` hands to `router.Use`. -/
inductive Middleware where
  | tracing
  | logging
  | kubeconfigLoading
  | secure
deriving DecidableEq, Repr

/-- The five handler methods of `Plugin`. -/
inductive HandlerId where
  | handleConfigList
  | handleConfigCreate
  | handleConfigGet
  | handleConfigUpdate
  | handleConfigDelete
deriving DecidableEq, Repr

/-- One registered route: full path pattern, method, success status and handler. -/
structure Route where
  path : String
  method : String
  okCode : Int
  handler : HandlerId
deriving DecidableEq, Repr

/-- One registration call on the router. -/
inductive Registration where
  | use (ms : List Middleware)
  | handle (r : Route)
deriving DecidableEq, Repr

/-- The router as a log of its registration calls, oldest first. -/
structure JSONRouter where
  registrations : List Registration
deriving DecidableEq, Repr

/-- The constructor `router.NewJSONRouter`. -/
def NewJSONRouter : JSONRouter := ⟨[]⟩

/-- The method `Use`: appends the middlewares to the router's chain. -/
def JSONRouter.Use (r : JSONRouter) (ms : List Middleware) : JSONRouter :=
  ⟨r.registrations ++ [.use ms]⟩

/-- A subrouter: a view of the same router under a path prefix. -/
structure Subrouter where
  basePath : String
deriving DecidableEq, Repr

/-- The method `Subroute` on the router. -/
def JSONRouter.Subroute (_r : JSONRouter) (p : String) : Subrouter := ⟨p⟩

/-- The method `Subroute` on a subrouter. -/
def Subrouter.Subroute (s : Subrouter) (p : String) : Subrouter := ⟨s.basePath ++ p⟩

/-- The method `HandleWithCode` on a subrouter, recorded on the router it belongs to. -/
def Subrouter.HandleWithCode (s : Subrouter) (r : JSONRouter) (path : String) (h : HandlerId)
    (okCode : Int) (method : String) : JSONRouter :=
  ⟨r.registrations ++ [.handle ⟨s.basePath ++ path, method, okCode, h⟩]⟩

/-- The method `Handle` on a subrouter: `HandleWithCode` with `http.StatusOK`. -/
def Subrouter.Handle (s : Subrouter) (r : JSONRouter) (path : String) (h : HandlerId)
    (method : String) : JSONRouter :=
  s.HandleWithCode r path h StatusOK method

/-- The middleware chain of the router: everything passed to `Use`, in call order. -/
def JSONRouter.middlewares (r : JSONRouter) : List Middleware :=
  r.registrations.foldr
    (fun reg acc => match reg with
      | .use ms => ms ++ acc
      | .handle _ => acc) []

/-- The routes of the router, in registration order. -/
def JSONRouter.routes (r : JSONRouter) : List Route :=
  r.registrations.foldr
    (fun reg acc => match reg with
      | .use _ => acc
      | .handle rt => rt :: acc) []

/-- Modelled from the spec: the router of the SDK runs, for every route, the registered
middlewares strictly in registration order and then the route's handler. -/
def JSONRouter.pipeline (r : JSONRouter) (rt : Route) : List (Middleware ⊕ HandlerId) :=
  r.middlewares.map Sum.inl ++ [Sum.inr rt.handler]

/-- The struct `Plugin`. -/
structure Plugin (σ S : Type) where
  router : JSONRouter
  namespace_ : String
  service : Service σ S

/-- The constructor `New` of `plugin.go`. -/
def New {σ S : Type} (ns : String) (service : Service σ S) : Plugin σ S :=
  let r0 := NewJSONRouter
  let r1 := r0.Use [.tracing, .logging, .kubeconfigLoading, .secure]
  let v1Subrouter := r1.Subroute "v1/"
  let configSubrouter := v1Subrouter.Subroute "configs/"
  let r2 := v1Subrouter.Handle r1 "configs" .handleConfigList "GET"
  let r3 := v1Subrouter.HandleWithCode r2 "configs" .handleConfigCreate StatusCreated "POST"
  let r4 := configSubrouter.Handle r3 "{name}" .handleConfigGet "GET"
  let r5 := configSubrouter.Handle r4 "{name}" .handleConfigUpdate "PUT"
  let r6 := configSubrouter.HandleWithCode r5 "{name}" .handleConfigDelete StatusNoContent "DELETE"
  { router := r6, namespace_ := ns, service := service }

/-! ## Handlers (`handler_config.go`) -/

/-- What a handler call produces: the Go result pair, the store state it leaves, and the calls
it made. -/
structure HandlerOut (σ S : Type) where
  resp : JSONResponse S
  err : Option HandlerError
  state : σ
  events : List (Event S)

/-- The method `Plugin.handleConfigList`. The Go test `len(filtersRaw) > 0` counts bytes; a
string has no byte exactly when it has no character. -/
def handleConfigList {σ S : Type} (p : Plugin σ S) (req : JSONRequest) (st : σ) :
    HandlerOut σ S :=
  let filtersRaw := req.Query.Get "filters"
  let filters : List String := if filtersRaw.length > 0 then stringsSplit filtersRaw ',' else []
  match p.service.GetConfigService st with
  | (.error err, st1) =>
    ⟨.nil, some (.pluginError StatusInternalServerError err.Error), st1,
      [.getConfigService, .logError ("Error getting ConfigService: " ++ err.Error)]⟩
  | (.ok svc, st1) =>
    match svc.List p.namespace_ filters st1 with
    | ((l, err), st2) =>
      ⟨.list l, err.map .unchanged, st2, [.getConfigService, .list p.namespace_ filters]⟩

/-- The method `Plugin.handleConfigGet`. The result is `none` only when the path variable
`name` is unbound at the point where the handler reads it. -/
def handleConfigGet {σ S : Type} (p : Plugin σ S) (req : JSONRequest) (st : σ) :
    Option (HandlerOut σ S) :=
  match p.service.GetConfigService st with
  | (.error err, st1) =>
    some ⟨.nil, some (.pluginError StatusInternalServerError err.Error), st1,
      [.getConfigService, .logError ("Error getting ConfigService: " ++ err.Error)]⟩
  | (.ok svc, st1) =>
    match req.Vars.MustGet "name" with
    | none => none
    | some name =>
      let id : Identifier := { Namespace := p.namespace_, Name := name }
      match svc.Get id st1 with
      | ((obj, none), st2) => some ⟨.object obj, none, st2, [.getConfigService, .get id]⟩
      | ((obj, some err), st2) =>
        match err.StatusCode with
        | some code =>
          some ⟨.nil, some (.pluginError code err.Error), st2, [.getConfigService, .get id]⟩
        | none =>
          some ⟨.object obj, some (.unchanged err), st2,
            [.getConfigService, .get id,
              .logError ("Error getting Config '" ++ name ++ "': " ++ err.Error)]⟩

/-- The method `Plugin.handleConfigCreate`. -/
def handleConfigCreate {σ S : Type} (unmarshal : Unmarshal S) (p : Plugin σ S)
    (req : JSONRequest) (st : σ) : HandlerOut σ S :=
  match req.Body with
  | .error err => ⟨.nil, some (.pluginError StatusBadRequest err.Error), st, []⟩
  | .ok body =>
    match unmarshal body with
    | .error err => ⟨.nil, some (.pluginError StatusBadRequest err.Error), st, []⟩
    | .ok t =>
      match p.service.GetConfigService st with
      | (.error err, st1) =>
        ⟨.nil, some (.pluginError StatusInternalServerError err.Error), st1,
          [.getConfigService, .logError ("Error getting ConfigService: " ++ err.Error)]⟩
      | (.ok svc, st1) =>
        let t1 : Object S := { t with StaticMeta := { t.StaticMeta with Namespace := p.namespace_ } }
        match svc.Add t1 st1 with
        | ((obj, none), st2) => ⟨.object obj, none, st2, [.getConfigService, .add t1]⟩
        | ((obj, some err), st2) =>
          match err.StatusCode with
          | some code =>
            ⟨.nil, some (.pluginError code err.Error), st2, [.getConfigService, .add t1]⟩
          | none =>
            ⟨.object obj, some (.unchanged err), st2,
              [.getConfigService, .add t1,
                .logError ("Error creating new Config: " ++ err.Error)]⟩

/-- The method `Plugin.handleConfigUpdate`. The result is `none` only when the path variable
`name` is unbound at the point where the handler reads it. -/
def handleConfigUpdate {σ S : Type} (unmarshal : Unmarshal S) (p : Plugin σ S)
    (req : JSONRequest) (st : σ) : Option (HandlerOut σ S) :=
  match req.Body with
  | .error err => some ⟨.nil, some (.pluginError StatusBadRequest err.Error), st, []⟩
  | .ok body =>
    match unmarshal body with
    | .error err => some ⟨.nil, some (.pluginError StatusBadRequest err.Error), st, []⟩
    | .ok t =>
      match p.service.GetConfigService st with
      | (.error err, st1) =>
        some ⟨.nil, some (.pluginError StatusInternalServerError err.Error), st1,
          [.getConfigService, .logError ("Error getting ConfigService: " ++ err.Error)]⟩
      | (.ok svc, st1) =>
        match req.Vars.MustGet "name" with
        | none => none
        | some name =>
          let id : Identifier := { Namespace := p.namespace_, Name := name }
          match svc.Update id t st1 with
          | ((obj, none), st2) =>
            some ⟨.object obj, none, st2, [.getConfigService, .update id t]⟩
          | ((obj, some err), st2) =>
            match err.StatusCode with
            | some code =>
              some ⟨.nil, some (.pluginError code err.Error), st2,
                [.getConfigService, .update id t]⟩
            | none =>
              some ⟨.object obj, some (.unchanged err), st2,
                [.getConfigService, .update id t,
                  .logError ("Error updating Config '" ++ name ++ "': " ++ err.Error)]⟩

/-- The method `Plugin.handleConfigDelete`. The result is `none` only when the path variable
`name` is unbound at the point where the handler reads it. -/
def handleConfigDelete {σ S : Type} (p : Plugin σ S) (req : JSONRequest) (st : σ) :
    Option (HandlerOut σ S) :=
  match p.service.GetConfigService st with
  | (.error err, st1) =>
    some ⟨.nil, some (.pluginError StatusInternalServerError err.Error), st1,
      [.getConfigService, .logError ("Error getting ConfigService: " ++ err.Error)]⟩
  | (.ok svc, st1) =>
    match req.Vars.MustGet "name" with
    | none => none
    | some name =>
      let id : Identifier := { Namespace := p.namespace_, Name := name }
      match svc.Delete id st1 with
      | (none, st2) => some ⟨.nil, none, st2, [.getConfigService, .delete id]⟩
      | (some err, st2) =>
        match err.StatusCode with
        | some code =>
          some ⟨.nil, some (.pluginError code err.Error), st2, [.getConfigService, .delete id]⟩
        | none =>
          some ⟨.nil, some (.unchanged err), st2,
            [.getConfigService, .delete id,
              .logError ("Error deleting Config '" ++ name ++ "': " ++ err.Error)]⟩

/-! ## Resource watcher (`watcher_config.go`) -/

/-- A value of the interface `resource.Object` as the watcher receives it: the nil interface, a
`*config.Object`, or an object of another kind with the static metadata it reports. Nil pointers
wrapped in a non-nil interface are left out: what a method call on them does is decided by the
package of the pointer's type. -/
inductive ResourceObject (S : Type) where
  | nil
  | config (o : Object S)
  | other (m : StaticMetadata)
deriving DecidableEq, Repr

/-- The method call `rObj.StaticMetadata()` on an interface value. Calling a method on the nil
interface is a run-time panic in Go: the result is `none` there. -/
def ResourceObject.StaticMetadata {S : Type} : ResourceObject S → Option StaticMetadata
  | .nil => none
  | .config o => some o.StaticMeta
  | .other m => some m

/-- The method `StaticMetadata.Identifier`. -/
def StaticMetadata.Identifier (m : StaticMetadata) : Identifier :=
  { Namespace := m.Namespace, Name := m.Name }

/-- The error built by `fmt.Errorf` on a failed type assertion. -/
def notConfigObjectError (m : StaticMetadata) : GoError :=
  { Error := "provided object is not of type *config.Object (name=" ++ m.Name ++
      ", namespace=" ++ m.Namespace ++ ", kind=" ++ m.Kind ++ ")",
    StatusCode := none }

/-- How a watcher callback ends: by a run-time panic, or by returning an error value (or nil)
after the debug lines it logged (message and the logged name). -/
inductive CallbackResult where
  | panicked
  | returned (err : Option GoError) (debug : List (String × String))
deriving DecidableEq, Repr

/-- The struct `ConfigWatcher`: it has no field. -/
structure ConfigWatcher where
deriving DecidableEq, Repr

/-- The constructor `NewConfigWatcher`. -/
def NewConfigWatcher : Except GoError ConfigWatcher := .ok {}

/-- The error path shared by the callbacks: the message reads the static metadata of the
rejected object three times. -/
def rejectObject {S : Type} (rObj : ResourceObject S) : CallbackResult :=
  match rObj.StaticMetadata with
  | none => .panicked
  | some m => .returned (some (notConfigObjectError m)) []

/-- The method `ConfigWatcher.Add`. -/
def ConfigWatcher.Add {S : Type} (_s : ConfigWatcher) (rObj : ResourceObject S) :
    CallbackResult :=
  match rObj with
  | .config object =>
    .returned none [("Added resource", object.StaticMeta.Identifier.Name)]
  | _ => rejectObject rObj

/-- The method `ConfigWatcher.Update`. -/
def ConfigWatcher.Update {S : Type} (_s : ConfigWatcher) (rOld rNew : ResourceObject S) :
    CallbackResult :=
  match rOld with
  | .config oldObject =>
    match rNew with
    | .config _ =>
      .returned none [("Updated resource", oldObject.StaticMeta.Identifier.Name)]
    | _ => rejectObject rNew
  | _ => rejectObject rOld

/-- The method `ConfigWatcher.Delete`. -/
def ConfigWatcher.Delete {S : Type} (_s : ConfigWatcher) (rObj : ResourceObject S) :
    CallbackResult :=
  match rObj with
  | .config object =>
    .returned none [("Deleted resource", object.StaticMeta.Identifier.Name)]
  | _ => rejectObject rObj

/-- The method `ConfigWatcher.Sync`. -/
def ConfigWatcher.Sync {S : Type} (_s : ConfigWatcher) (rObj : ResourceObject S) :
    CallbackResult :=
  match rObj with
  | .config object =>
    .returned none [("Possible resource update", object.StaticMeta.Identifier.Name)]
  | _ => rejectObject rObj

/-! ## Reading the event list -/

/-- The objects handed to `ConfigService.Add`, in call order. -/
def addCalls {S : Type} : List (Event S) → List (Object S)
  | [] => []
  | .add obj :: evs => obj :: addCalls evs
  | _ :: evs => addCalls evs

/-- The `ConfigService` operations among the events, in call order. -/
def storeCalls {S : Type} (evs : List (Event S)) : List (Event S) :=
  evs.filter Event.isConfigServiceOp

/-- Two objects agree on everything but the store-assigned version token. -/
def sameExceptStoreMeta {S : Type} (a b : Object S) : Prop :=
  a.StaticMeta = b.StaticMeta ∧ a.Labels = b.Labels ∧ a.Annotations = b.Annotations ∧
    a.Spec = b.Spec

/-- The store law of the round trip: when `Add` succeeds and returns the stored object, that
object is the submitted one up to store-assigned metadata, and `Get` on its (namespace, name)
returns it. -/
def AddThenGet {σ S : Type} (svc : ConfigService σ S) : Prop :=
  ∀ (obj : Object S) (s : σ) (r : Object S) (s1 : σ),
    svc.Add obj s = ((some r, none), s1) →
      sameExceptStoreMeta obj r ∧ (svc.Get r.StaticMeta.Identifier s1).1 = (some r, none)

/-- The reply every handler gives when `GetConfigService` fails with `e` and leaves the state
`st1`: nil response, plugin error 500 with the text of `e`, after the failed call and one error
log line. -/
def internalErrorReply {σ S : Type} (e : GoError) (st1 : σ) : HandlerOut σ S :=
  ⟨.nil, some (.pluginError 500 e.Error), st1,
    [.getConfigService, .logError ("Error getting ConfigService: " ++ e.Error)]⟩

/-! ## Example instances -/

/-- A stored object used in the examples: `cfg1` in namespace `ns1`. -/
def sampleObject : Object String :=
  { StaticMeta := { Namespace := "ns1", Name := "cfg1", Kind := "Config" },
    ResourceVersion := "1", Labels := [], Annotations := [], Spec := "k=v" }

/-- A `ConfigService` without state whose every operation fails with `e`. -/
def failingStore (e : GoError) : ConfigService Unit String where
  Get _ s := ((none, some e), s)
  Add _ s := ((none, some e), s)
  Update _ _ s := ((none, some e), s)
  Delete _ s := (some e, s)
  List _ _ s := ((none, some e), s)

/-- A `Service` whose `GetConfigService` fails with `e`. -/
def failingService (σ : Type) (e : GoError) : Service σ String :=
  ⟨fun st => (.error e, st)⟩

/-- Whether a stored object is addressed by an identifier. -/
def memKey (id : Identifier) (o : Object String) : Bool :=
  o.StaticMeta.Namespace == id.Namespace && o.StaticMeta.Name == id.Name

/-- The error of the in-memory store for an absent object. -/
def memNotFound : GoError := { Error := "not found", StatusCode := some 404 }

/-- An in-memory `ConfigService` over a list of objects, newest first. `Add` refuses an
identifier that is taken and assigns the version token. -/
def memStore : ConfigService (List (Object String)) String where
  Get id s :=
    match s.find? (memKey id) with
    | some o => ((some o, none), s)
    | none => ((none, some memNotFound), s)
  Add obj s :=
    if s.any (memKey obj.StaticMeta.Identifier) then
      ((none, some { Error := "already exists", StatusCode := some 409 }), s)
    else
      ((some { obj with ResourceVersion := "1" }, none), { obj with ResourceVersion := "1" } :: s)
  Update id obj s :=
    if s.any (memKey id) then
      ((some { obj with
          StaticMeta := { obj.StaticMeta with Namespace := id.Namespace, Name := id.Name },
          ResourceVersion := "2" }, none),
        { obj with
          StaticMeta := { obj.StaticMeta with Namespace := id.Namespace, Name := id.Name },
          ResourceVersion := "2" } :: s.filter (fun o => !memKey id o))
    else ((none, some memNotFound), s)
  Delete id s :=
    if s.any (memKey id) then (none, s.filter (fun o => !memKey id o))
    else (some memNotFound, s)
  List ns _ s := ((some ⟨s.filter (fun o => o.StaticMeta.Namespace == ns)⟩, none), s)

/-- The Go zero value `config.Object{}`. -/
def zeroObject : Object String :=
  { StaticMeta := { Namespace := "", Name := "", Kind := "" },
    ResourceVersion := "", Labels := [], Annotations := [], Spec := "" }

/-- The JSON decoder on the two bodies the examples send. The empty JSON object (an opening and
a closing brace) leaves every field of the zero `config.Object` as it is, as `json.Unmarshal`
does for any struct; the empty body is the decoder's `unexpected end of JSON input`. No example
sends another body; the decoder reports those as undecodable. -/
def sampleUnmarshal : Unmarshal String := fun body =>
  if body = "\x7b\x7d" then .ok zeroObject
  else if body = "" then .error { Error := "unexpected end of JSON input", StatusCode := none }
  else .error { Error := "json: body outside the examples", StatusCode := none }

/-! ## Store errors in Get, Create, Update and Delete -/

/-- Claim C1. In `handleConfigGet`, `handleConfigCreate`, `handleConfigUpdate` and
`handleConfigDelete`, once the `ConfigService` has been obtained and its operation fails with an
error `e`: if `e` carries a status code `c`, the handler returns the nil response and
`plugin.NewError(c, e.Error())`; if `e` carries no status code, the handler returns `e` itself,
unchanged. -/
theorem store_error_is_forwarded {σ S : Type} (unmarshal : Unmarshal S) (p : Plugin σ S)
    (req : JSONRequest) (st st1 : σ) (svc : ConfigService σ S) (e : GoError)
    (hsvc : p.service.GetConfigService st = (.ok svc, st1)) :
    (∀ name obj st2, req.Vars.MustGet "name" = some name →
        svc.Get ⟨p.namespace_, name⟩ st1 = ((obj, some e), st2) →
        ∃ out, handleConfigGet p req st = some out ∧
          (∀ c, e.StatusCode = some c →
            out.resp = .nil ∧ out.err = some (.pluginError c e.Error)) ∧
          (e.StatusCode = none → out.err = some (.unchanged e))) ∧
    (∀ body t obj st2, req.Body = .ok body → unmarshal body = .ok t →
        svc.Add { t with StaticMeta := { t.StaticMeta with Namespace := p.namespace_ } } st1
          = ((obj, some e), st2) →
        (∀ c, e.StatusCode = some c →
          (handleConfigCreate unmarshal p req st).resp = .nil ∧
          (handleConfigCreate unmarshal p req st).err = some (.pluginError c e.Error)) ∧
        (e.StatusCode = none →
          (handleConfigCreate unmarshal p req st).err = some (.unchanged e))) ∧
    (∀ body t name obj st2, req.Body = .ok body → unmarshal body = .ok t →
        req.Vars.MustGet "name" = some name →
        svc.Update ⟨p.namespace_, name⟩ t st1 = ((obj, some e), st2) →
        ∃ out, handleConfigUpdate unmarshal p req st = some out ∧
          (∀ c, e.StatusCode = some c →
            out.resp = .nil ∧ out.err = some (.pluginError c e.Error)) ∧
          (e.StatusCode = none → out.err = some (.unchanged e))) ∧
    (∀ name st2, req.Vars.MustGet "name" = some name →
        svc.Delete ⟨p.namespace_, name⟩ st1 = (some e, st2) →
        ∃ out, handleConfigDelete p req st = some out ∧
          (∀ c, e.StatusCode = some c →
            out.resp = .nil ∧ out.err = some (.pluginError c e.Error)) ∧
          (e.StatusCode = none → out.err = some (.unchanged e))) := by
  refine ⟨?_, ?_, ?_, ?_⟩
  · intro name obj st2 hname hget
    cases hc : e.StatusCode with
    | none => simp [handleConfigGet, hsvc, hname, hget, hc]
    | some c => simp [handleConfigGet, hsvc, hname, hget, hc]
  · intro body t obj st2 hbody hdec hadd
    cases hc : e.StatusCode with
    | none => simp [handleConfigCreate, hsvc, hbody, hdec, hadd, hc]
    | some c => simp [handleConfigCreate, hsvc, hbody, hdec, hadd, hc]
  · intro body t name obj st2 hbody hdec hname hupd
    cases hc : e.StatusCode with
    | none => simp [handleConfigUpdate, hsvc, hbody, hdec, hname, hupd, hc]
    | some c => simp [handleConfigUpdate, hsvc, hbody, hdec, hname, hupd, hc]
  · intro name st2 hname hdel
    cases hc : e.StatusCode with
    | none => simp [handleConfigDelete, hsvc, hname, hdel, hc]
    | some c => simp [handleConfigDelete, hsvc, hname, hdel, hc]

/-- Witness of C1: over a store whose operations fail with `404 not found`, the four handlers
return the nil response and the plugin error `404 not found`. -/
theorem store_error_is_forwarded_witness :
    (∃ out, handleConfigGet (New "ns1" (PluginService.mk (failingStore memNotFound)).toService)
        ⟨[], [("name", "cfg1")], .ok "\x7b\x7d"⟩ () = some out ∧
        out.resp = .nil ∧ out.err = some (.pluginError 404 "not found")) ∧
    ((handleConfigCreate sampleUnmarshal
        (New "ns1" (PluginService.mk (failingStore memNotFound)).toService)
        ⟨[], [("name", "cfg1")], .ok "\x7b\x7d"⟩ ()).err = some (.pluginError 404 "not found")) ∧
    (∃ out, handleConfigUpdate sampleUnmarshal
        (New "ns1" (PluginService.mk (failingStore memNotFound)).toService)
        ⟨[], [("name", "cfg1")], .ok "\x7b\x7d"⟩ () = some out ∧
        out.resp = .nil ∧ out.err = some (.pluginError 404 "not found")) ∧
    (∃ out, handleConfigDelete (New "ns1" (PluginService.mk (failingStore memNotFound)).toService)
        ⟨[], [("name", "cfg1")], .ok "\x7b\x7d"⟩ () = some out ∧
        out.resp = .nil ∧ out.err = some (.pluginError 404 "not found")) := by
  have h := store_error_is_forwarded sampleUnmarshal
    (New "ns1" (PluginService.mk (failingStore memNotFound)).toService)
    ⟨[], [("name", "cfg1")], .ok "\x7b\x7d"⟩ () () (failingStore memNotFound) memNotFound rfl
  obtain ⟨hg, hc, hu, hd⟩ := h
  refine ⟨?_, ?_, ?_, ?_⟩
  · obtain ⟨out, ho, h1, _⟩ := hg "cfg1" none () rfl rfl
    exact ⟨out, ho, h1 404 rfl⟩
  · exact ((hc "\x7b\x7d" _ none () rfl rfl rfl).1 404 rfl).2
  · obtain ⟨out, ho, h1, _⟩ := hu "\x7b\x7d" _ "cfg1" none () rfl rfl rfl rfl
    exact ⟨out, ho, h1 404 rfl⟩
  · obtain ⟨out, ho, h1, _⟩ := hd "cfg1" () rfl rfl
    exact ⟨out, ho, h1 404 rfl⟩

/-! ## Malformed bodies -/

/-- Claim C2. When the body of a create or update request cannot be read, or does not decode
into a Config object, the handler returns the nil response and a plugin error of status 400 with
the decoder's (or reader's) message, leaves the store state untouched and makes no call at all:
neither `GetConfigService` nor `Add`/`Update`. The service of the plugin is arbitrary, so this
holds as well when `GetConfigService` would have failed. -/
theorem bad_body_is_bad_request {σ S : Type} (unmarshal : Unmarshal S) (p : Plugin σ S)
    (req : JSONRequest) (st : σ) (e : GoError)
    (hbad : req.Body = .error e ∨ ∃ body, req.Body = .ok body ∧ unmarshal body = .error e) :
    (handleConfigCreate unmarshal p req st).resp = .nil ∧
    (handleConfigCreate unmarshal p req st).err = some (.pluginError 400 e.Error) ∧
    (handleConfigCreate unmarshal p req st).state = st ∧
    (handleConfigCreate unmarshal p req st).events = [] ∧
    ∃ out, handleConfigUpdate unmarshal p req st = some out ∧
      out.resp = .nil ∧ out.err = some (.pluginError 400 e.Error) ∧ out.state = st ∧
      out.events = [] := by
  rcases hbad with h | ⟨body, hb, hd⟩
  · simp [handleConfigCreate, handleConfigUpdate, h, StatusBadRequest]
  · simp [handleConfigCreate, handleConfigUpdate, hb, hd, StatusBadRequest]

/-- Witness of C2: an empty body, sent to a plugin whose service cannot be obtained, is answered
with status 400. -/
theorem bad_body_is_bad_request_witness :
    (handleConfigCreate sampleUnmarshal
        (New "ns1" (failingService Unit { Error := "unavailable", StatusCode := some 503 }))
        ⟨[], [("name", "cfg1")], .ok ""⟩ ()).err
      = some (.pluginError 400 "unexpected end of JSON input") ∧
    (handleConfigCreate sampleUnmarshal
        (New "ns1" (failingService Unit { Error := "unavailable", StatusCode := some 503 }))
        ⟨[], [("name", "cfg1")], .ok ""⟩ ()).events = [] :=
  have h := bad_body_is_bad_request sampleUnmarshal
    (New "ns1" (failingService Unit { Error := "unavailable", StatusCode := some 503 }))
    ⟨[], [("name", "cfg1")], .ok ""⟩ ()
    { Error := "unexpected end of JSON input", StatusCode := none }
    (Or.inr ⟨"", rfl, rfl⟩)
  ⟨h.2.1, h.2.2.2.1⟩

/-! ## Failure of `GetConfigService` -/

/-- Claim C10. When `GetConfigService` fails with `e`, each of the five handlers returns the nil
response and the plugin error of status 500 whose message is `e.Error()`, whatever status code
`e` itself carries, and calls no `ConfigService` operation. `handleConfigCreate` and
`handleConfigUpdate` call `GetConfigService` only after the body has decoded, so for them the
statement is about the runs in which the call is made. -/
theorem service_failure_is_internal_error {σ S : Type} (unmarshal : Unmarshal S)
    (p : Plugin σ S) (req : JSONRequest) (st st1 : σ) (e : GoError)
    (hfail : p.service.GetConfigService st = (.error e, st1)) :
    handleConfigList p req st = internalErrorReply e st1 ∧
    handleConfigGet p req st = some (internalErrorReply e st1) ∧
    handleConfigDelete p req st = some (internalErrorReply e st1) ∧
    (Event.getConfigService ∈ (handleConfigCreate unmarshal p req st).events →
      handleConfigCreate unmarshal p req st = internalErrorReply e st1) ∧
    (∃ out, handleConfigUpdate unmarshal p req st = some out ∧
      (Event.getConfigService ∈ out.events → out = internalErrorReply e st1)) ∧
    (∀ body t, req.Body = .ok body → unmarshal body = .ok t →
      handleConfigCreate unmarshal p req st = internalErrorReply e st1 ∧
      handleConfigUpdate unmarshal p req st = some (internalErrorReply e st1)) ∧
    (internalErrorReply e st1 : HandlerOut σ S).resp = .nil ∧
    (internalErrorReply e st1 : HandlerOut σ S).err = some (.pluginError 500 e.Error) ∧
    storeCalls (internalErrorReply e st1 : HandlerOut σ S).events = [] := by
  refine ⟨?_, ?_, ?_, ?_, ?_, ?_, rfl, rfl, rfl⟩
  · simp [handleConfigList, hfail, internalErrorReply, StatusInternalServerError]
  · simp [handleConfigGet, hfail, internalErrorReply, StatusInternalServerError]
  · simp [handleConfigDelete, hfail, internalErrorReply, StatusInternalServerError]
  · cases hb : req.Body with
    | error err => simp [handleConfigCreate, hb]
    | ok body =>
      cases hd : unmarshal body with
      | error err => simp [handleConfigCreate, hb, hd]
      | ok t =>
        simp [handleConfigCreate, hb, hd, hfail, internalErrorReply, StatusInternalServerError]
  · cases hb : req.Body with
    | error err => simp [handleConfigUpdate, hb]
    | ok body =>
      cases hd : unmarshal body with
      | error err => simp [handleConfigUpdate, hb, hd]
      | ok t =>
        simp [handleConfigUpdate, hb, hd, hfail, internalErrorReply, StatusInternalServerError]
  · intro body t hb hd
    simp [handleConfigCreate, handleConfigUpdate, hb, hd, hfail, internalErrorReply,
      StatusInternalServerError]

/-- Witness of C10: a service that fails with `503 unavailable` makes the list handler and, on a
well-formed body, the create handler answer 500 with that text. -/
theorem service_failure_is_internal_error_witness :
    (handleConfigList
        (New "ns1" (failingService Unit { Error := "unavailable", StatusCode := some 503 }))
        ⟨[], [("name", "cfg1")], .ok "\x7b\x7d"⟩ ()).err
      = some (.pluginError 500 "unavailable") ∧
    (handleConfigCreate sampleUnmarshal
        (New "ns1" (failingService Unit { Error := "unavailable", StatusCode := some 503 }))
        ⟨[], [("name", "cfg1")], .ok "\x7b\x7d"⟩ ()).err
      = some (.pluginError 500 "unavailable") := by
  have h := service_failure_is_internal_error sampleUnmarshal
    (New "ns1" (failingService Unit { Error := "unavailable", StatusCode := some 503 }))
    ⟨[], [("name", "cfg1")], .ok "\x7b\x7d"⟩ () ()
    { Error := "unavailable", StatusCode := some 503 } rfl
  refine ⟨?_, ?_⟩
  · rw [h.1]; rfl
  · rw [(h.2.2.2.2.2.1 "\x7b\x7d" _ rfl rfl).1]; rfl

/-! ## Identifiers of Get, Update and Delete -/

/-- Claim C5. When `GetConfigService` succeeds (and, for update, the body decodes),
`handleConfigGet`, `handleConfigUpdate` and `handleConfigDelete` call the store operation exactly
once, with the identifier made of the plugin's namespace and the value of the path variable
`name`, whatever the request body holds, and hand on the store state that this one call leaves.
When the store operation reports no error, get and update return exactly the object the store
returned, and delete returns the nil response; all three without error. -/
theorem identifier_is_namespace_and_name {σ S : Type} (unmarshal : Unmarshal S)
    (p : Plugin σ S) (req : JSONRequest) (st st1 : σ) (svc : ConfigService σ S) (name : String)
    (hsvc : p.service.GetConfigService st = (.ok svc, st1))
    (hname : req.Vars.MustGet "name" = some name) :
    (∃ out, handleConfigGet p req st = some out ∧
      storeCalls out.events = [.get ⟨p.namespace_, name⟩] ∧
      out.state = (svc.Get ⟨p.namespace_, name⟩ st1).2 ∧
      ((svc.Get ⟨p.namespace_, name⟩ st1).1.2 = none →
        out.resp = .object (svc.Get ⟨p.namespace_, name⟩ st1).1.1 ∧ out.err = none)) ∧
    (∀ body t, req.Body = .ok body → unmarshal body = .ok t →
      ∃ out, handleConfigUpdate unmarshal p req st = some out ∧
        storeCalls out.events = [.update ⟨p.namespace_, name⟩ t] ∧
        out.state = (svc.Update ⟨p.namespace_, name⟩ t st1).2 ∧
        ((svc.Update ⟨p.namespace_, name⟩ t st1).1.2 = none →
          out.resp = .object (svc.Update ⟨p.namespace_, name⟩ t st1).1.1 ∧ out.err = none)) ∧
    (∃ out, handleConfigDelete p req st = some out ∧
      storeCalls out.events = [.delete ⟨p.namespace_, name⟩] ∧
      out.state = (svc.Delete ⟨p.namespace_, name⟩ st1).2 ∧
      ((svc.Delete ⟨p.namespace_, name⟩ st1).1 = none → out.resp = .nil ∧ out.err = none)) := by
  refine ⟨?_, ?_, ?_⟩
  · rcases hg : svc.Get ⟨p.namespace_, name⟩ st1 with ⟨⟨obj, err⟩, st2⟩
    cases err with
    | none => simp [handleConfigGet, hsvc, hname, hg, storeCalls, Event.isConfigServiceOp]
    | some e =>
      cases hc : e.StatusCode <;>
        simp [handleConfigGet, hsvc, hname, hg, hc, storeCalls, Event.isConfigServiceOp]
  · intro body t hb hd
    rcases hu : svc.Update ⟨p.namespace_, name⟩ t st1 with ⟨⟨obj, err⟩, st2⟩
    cases err with
    | none =>
      simp [handleConfigUpdate, hsvc, hname, hb, hd, hu, storeCalls, Event.isConfigServiceOp]
    | some e =>
      cases hc : e.StatusCode <;>
        simp [handleConfigUpdate, hsvc, hname, hb, hd, hu, hc, storeCalls,
          Event.isConfigServiceOp]
  · rcases hdl : svc.Delete ⟨p.namespace_, name⟩ st1 with ⟨err, st2⟩
    cases err with
    | none => simp [handleConfigDelete, hsvc, hname, hdl, storeCalls, Event.isConfigServiceOp]
    | some e =>
      cases hc : e.StatusCode <;>
        simp [handleConfigDelete, hsvc, hname, hdl, hc, storeCalls, Event.isConfigServiceOp]

/-- Witness of C5: over the in-memory store holding `cfg1` in `ns1`, and for a request with the
path variable `cfg1` and the empty JSON object as body: get returns the stored object and
leaves the store as it is; update stores the decoded body under `ns1`/`cfg1` in place of the
old object and returns it; delete returns the nil response and leaves the store empty. -/
theorem identifier_is_namespace_and_name_witness :
    (∃ out, handleConfigGet (New "ns1" (PluginService.mk memStore).toService)
        ⟨[], [("name", "cfg1")], .ok "\x7b\x7d"⟩ [sampleObject] = some out ∧
      storeCalls out.events = [.get ⟨"ns1", "cfg1"⟩] ∧
      out.state = [sampleObject] ∧
      out.resp = .object (some sampleObject) ∧ out.err = none) ∧
    (∃ out, handleConfigUpdate sampleUnmarshal (New "ns1" (PluginService.mk memStore).toService)
        ⟨[], [("name", "cfg1")], .ok "\x7b\x7d"⟩ [sampleObject] = some out ∧
      storeCalls out.events = [.update ⟨"ns1", "cfg1"⟩ zeroObject] ∧
      out.state = [{ zeroObject with
        StaticMeta := { Namespace := "ns1", Name := "cfg1", Kind := "" },
        ResourceVersion := "2" }] ∧
      out.resp = .object (some { zeroObject with
        StaticMeta := { Namespace := "ns1", Name := "cfg1", Kind := "" },
        ResourceVersion := "2" }) ∧ out.err = none) ∧
    (∃ out, handleConfigDelete (New "ns1" (PluginService.mk memStore).toService)
        ⟨[], [("name", "cfg1")], .ok "\x7b\x7d"⟩ [sampleObject] = some out ∧
      storeCalls out.events = [.delete ⟨"ns1", "cfg1"⟩] ∧
      out.state = [] ∧ out.resp = .nil ∧ out.err = none) := by
  obtain ⟨hg, hu, hd⟩ := identifier_is_namespace_and_name sampleUnmarshal
    (New "ns1" (PluginService.mk memStore).toService)
    ⟨[], [("name", "cfg1")], .ok "\x7b\x7d"⟩ [sampleObject] [sampleObject] memStore "cfg1"
    rfl rfl
  refine ⟨?_, ?_, ?_⟩
  · obtain ⟨out, ho, hcalls, hst, hres⟩ := hg
    exact ⟨out, ho, hcalls, hst.trans (by decide), (hres (by decide)).1.trans (by decide),
      (hres (by decide)).2⟩
  · obtain ⟨out, ho, hcalls, hst, hres⟩ := hu "\x7b\x7d" zeroObject rfl rfl
    exact ⟨out, ho, hcalls, hst.trans (by decide), (hres (by decide)).1.trans (by decide),
      (hres (by decide)).2⟩
  · obtain ⟨out, ho, hcalls, hst, hres⟩ := hd
    exact ⟨out, ho, hcalls, hst.trans (by decide), (hres (by decide)).1, (hres (by decide)).2⟩

/-! ## Create stamps the namespace -/

/-- Claim C3, `for every well-formed body ... Add is invoked exactly once` refuted: the body is
the empty JSON object, which decodes into the zero `config.Object`, and the service cannot be
obtained; `handleConfigCreate` answers with the plugin error 500 and forwards nothing to
`Add`. -/
theorem create_without_service_adds_nothing :
    sampleUnmarshal "\x7b\x7d" = .ok zeroObject ∧
    (handleConfigCreate sampleUnmarshal
      (New "ns1" (failingService Unit { Error := "unavailable", StatusCode := none }))
      ⟨[], [], .ok "\x7b\x7d"⟩ ()).err = some (.pluginError 500 "unavailable") ∧
    addCalls (handleConfigCreate sampleUnmarshal
      (New "ns1" (failingService Unit { Error := "unavailable", StatusCode := none }))
      ⟨[], [], .ok "\x7b\x7d"⟩ ()).events = [] ∧
    storeCalls (handleConfigCreate sampleUnmarshal
      (New "ns1" (failingService Unit { Error := "unavailable", StatusCode := none }))
      ⟨[], [], .ok "\x7b\x7d"⟩ ()).events = [] := by
  refine ⟨rfl, ?_, ?_, ?_⟩ <;> decide

/-- Claim C3, amended. For every well-formed create body and every plugin namespace, when
`GetConfigService` succeeds, `handleConfigCreate` calls `Add` exactly once (and no other store
operation), with an object whose namespace is the plugin's namespace, whatever the body named,
and whose every other field is that of the decoded body. The handler hands on the store state
that this one call leaves and, when `Add` reports no error, returns the object `Add`
returned. -/
theorem create_forwards_stamped_object {σ S : Type} (unmarshal : Unmarshal S)
    (p : Plugin σ S) (req : JSONRequest) (st st1 : σ) (svc : ConfigService σ S)
    (body : String) (t : Object S)
    (hbody : req.Body = .ok body) (hdec : unmarshal body = .ok t)
    (hsvc : p.service.GetConfigService st = (.ok svc, st1)) :
    ∃ obj, addCalls (handleConfigCreate unmarshal p req st).events = [obj] ∧
      storeCalls (handleConfigCreate unmarshal p req st).events = [.add obj] ∧
      (handleConfigCreate unmarshal p req st).state = (svc.Add obj st1).2 ∧
      ((svc.Add obj st1).1.2 = none →
        (handleConfigCreate unmarshal p req st).resp = .object (svc.Add obj st1).1.1 ∧
        (handleConfigCreate unmarshal p req st).err = none) ∧
      obj.StaticMeta.Namespace = p.namespace_ ∧
      obj.StaticMeta.Name = t.StaticMeta.Name ∧
      obj.StaticMeta.Kind = t.StaticMeta.Kind ∧
      obj.ResourceVersion = t.ResourceVersion ∧
      obj.Labels = t.Labels ∧
      obj.Annotations = t.Annotations ∧
      obj.Spec = t.Spec := by
  refine ⟨{ t with StaticMeta := { t.StaticMeta with Namespace := p.namespace_ } },
    ?_, ?_, ?_, ?_, rfl, rfl, rfl, rfl, rfl, rfl, rfl⟩
  all_goals
    rcases ha : svc.Add { t with StaticMeta := { t.StaticMeta with Namespace := p.namespace_ } }
      st1 with ⟨⟨obj, err⟩, st2⟩
    cases err with
    | none =>
      simp [handleConfigCreate, hbody, hdec, hsvc, ha, addCalls, storeCalls,
        Event.isConfigServiceOp]
    | some e =>
      cases hc : e.StatusCode <;>
        simp [handleConfigCreate, hbody, hdec, hsvc, ha, hc, addCalls, storeCalls,
          Event.isConfigServiceOp]

/-- Witness of the amended C3: the empty JSON object, created through a plugin of namespace
`ns1` over the empty in-memory store, reaches `Add` once, in namespace `ns1`, and the store then
holds that object with its version token. -/
theorem create_forwards_stamped_object_witness :
    sampleUnmarshal "\x7b\x7d" = .ok zeroObject ∧
    ∃ obj, addCalls (handleConfigCreate sampleUnmarshal
        (New "ns1" (PluginService.mk memStore).toService)
        ⟨[], [], .ok "\x7b\x7d"⟩ []).events = [obj] ∧
      obj = { zeroObject with StaticMeta := { Namespace := "ns1", Name := "", Kind := "" } } ∧
      (handleConfigCreate sampleUnmarshal
        (New "ns1" (PluginService.mk memStore).toService)
        ⟨[], [], .ok "\x7b\x7d"⟩ []).state = [{ obj with ResourceVersion := "1" }] ∧
      (handleConfigCreate sampleUnmarshal
        (New "ns1" (PluginService.mk memStore).toService)
        ⟨[], [], .ok "\x7b\x7d"⟩ []).resp = .object (some { obj with ResourceVersion := "1" }) := by
  refine ⟨rfl, ?_⟩
  obtain ⟨obj, h1, _, hst, hres, _⟩ := create_forwards_stamped_object sampleUnmarshal
    (New "ns1" (PluginService.mk memStore).toService) ⟨[], [], .ok "\x7b\x7d"⟩ [] [] memStore
    "\x7b\x7d" zeroObject rfl rfl rfl
  have hobj : obj
      = { zeroObject with StaticMeta := { Namespace := "ns1", Name := "", Kind := "" } } := by
    have h2 : addCalls (handleConfigCreate sampleUnmarshal
        (New "ns1" (PluginService.mk memStore).toService)
        ⟨[], [], .ok "\x7b\x7d"⟩ []).events
        = [{ zeroObject with StaticMeta := { Namespace := "ns1", Name := "", Kind := "" } }] := by
      decide
    rw [h1] at h2
    exact List.head_eq_of_cons_eq h2
  subst hobj
  exact ⟨_, h1, rfl, hst.trans (by decide), (hres (by decide)).1.trans (by decide)⟩

/-! ## Filters of the list handler -/

/-- The plugin built by `New` keeps the namespace it was given. -/
theorem New_namespace {σ S : Type} (ns : String) (service : Service σ S) :
    (New ns service).namespace_ = ns := rfl

/-- The plugin built by `New` keeps the service it was given. -/
theorem New_service {σ S : Type} (ns : String) (service : Service σ S) :
    (New ns service).service = service := rfl

/-- The in-memory store obeys the store law of the round trip. -/
theorem memStore_addThenGet : AddThenGet memStore := by
  intro obj s r s1 h
  by_cases hany : s.any (memKey obj.StaticMeta.Identifier) = true
  · simp only [memStore] at h
    rw [if_pos hany] at h
    simp at h
  · simp only [memStore] at h
    rw [if_neg hany] at h
    simp only [Prod.mk.injEq, Option.some.injEq, and_true] at h
    obtain ⟨hr, hs⟩ := h
    subst hr
    subst hs
    refine ⟨⟨rfl, rfl, rfl, rfl⟩, ?_⟩
    simp [memStore, memKey, StaticMetadata.Identifier, List.find?]

/-- Claim C6. Over a plugin wired by `PluginService` to a `ConfigService` that obeys the store
law `AddThenGet` (`Get` returns the object that `Add` stored under its namespace and name): for
every well-formed create body, when `handleConfigCreate` succeeds and returns the object `r`, a
following `handleConfigGet` whose path variable `name` is the name of `r` succeeds, and the
object it yields equals the created payload (the decoded body in the plugin's namespace) except
for store-assigned metadata. -/
theorem create_then_get_round_trip {σ S : Type} (unmarshal : Unmarshal S)
    (svc : ConfigService σ S) (ns : String) (reqC reqG : JSONRequest) (st : σ)
    (body : String) (t r : Object S)
    (hlaw : AddThenGet svc)
    (hbody : reqC.Body = .ok body) (hdec : unmarshal body = .ok t)
    (hresp : (handleConfigCreate unmarshal (New ns (PluginService.mk svc).toService) reqC st).resp
      = .object (some r))
    (herr : (handleConfigCreate unmarshal (New ns (PluginService.mk svc).toService) reqC st).err
      = none)
    (hname : reqG.Vars.MustGet "name" = some r.StaticMeta.Name) :
    ∃ out g, handleConfigGet (New ns (PluginService.mk svc).toService) reqG
        (handleConfigCreate unmarshal (New ns (PluginService.mk svc).toService) reqC st).state
          = some out ∧
      out.err = none ∧ out.resp = .object (some g) ∧
      sameExceptStoreMeta { t with StaticMeta := { t.StaticMeta with Namespace := ns } } g ∧
      g.StaticMeta.Namespace = ns ∧ g.StaticMeta.Name = t.StaticMeta.Name ∧
      g.Labels = t.Labels ∧ g.Annotations = t.Annotations ∧ g.Spec = t.Spec := by
  rcases ha : svc.Add { t with StaticMeta := { t.StaticMeta with Namespace := ns } } st
    with ⟨⟨obj, err⟩, st2⟩
  have hprov : ∀ s : σ, (PluginService.mk svc).toService.GetConfigService s = (.ok svc, s) :=
    fun _ => rfl
  cases err with
  | some e =>
    cases hc : e.StatusCode <;>
      simp [handleConfigCreate, hbody, hdec, New_namespace, New_service, hprov, ha, hc] at hresp herr
  | none =>
    simp only [handleConfigCreate, hbody, hdec, New_namespace, New_service, hprov, ha,
      JSONResponse.object.injEq] at hresp
    subst hresp
    obtain ⟨hsame, hget⟩ := hlaw _ _ _ _ ha
    have hns : r.StaticMeta.Namespace = ns := by rw [← hsame.1]
    have hid : r.StaticMeta.Identifier = ⟨ns, r.StaticMeta.Name⟩ := by
      simp [StaticMetadata.Identifier, hns]
    rw [hid] at hget
    rcases hg : svc.Get ⟨ns, r.StaticMeta.Name⟩ st2 with ⟨⟨gobj, gerr⟩, st3⟩
    rw [hg] at hget
    simp only [Prod.mk.injEq] at hget
    obtain ⟨hgo, hge⟩ := hget
    subst hgo
    subst hge
    refine ⟨⟨.object (some r), none, st3, [.getConfigService, .get ⟨ns, r.StaticMeta.Name⟩]⟩, r,
      ?_, rfl, rfl, hsame, hns, ?_, hsame.2.1.symm, hsame.2.2.1.symm, hsame.2.2.2.symm⟩
    · simp [handleConfigGet, handleConfigCreate, hbody, hdec, New_namespace, New_service, hprov,
        ha, hname, hg]
    · rw [← hsame.1]

/-- Witness of C6: over the empty in-memory store, creating the empty JSON object through a
plugin of namespace `ns1` and getting the returned name back yields the created payload in
namespace `ns1`. -/
theorem create_then_get_round_trip_witness :
    ∃ out g, handleConfigGet (New "ns1" (PluginService.mk memStore).toService)
        ⟨[], [("name", "")], .ok ""⟩
        (handleConfigCreate sampleUnmarshal (New "ns1" (PluginService.mk memStore).toService)
          ⟨[], [], .ok "\x7b\x7d"⟩ []).state = some out ∧
      out.err = none ∧ out.resp = .object (some g) ∧
      g.StaticMeta.Namespace = "ns1" ∧ g.StaticMeta.Name = "" ∧ g.Spec = "" := by
  obtain ⟨out, g, h1, h2, h3, _, h5, h6, _, _, h9⟩ := create_then_get_round_trip sampleUnmarshal
    memStore "ns1" ⟨[], [], .ok "\x7b\x7d"⟩ ⟨[], [("name", "")], .ok ""⟩ [] "\x7b\x7d"
    zeroObject
    { StaticMeta := { Namespace := "ns1", Name := "", Kind := "" },
      ResourceVersion := "1", Labels := [], Annotations := [], Spec := "" }
    memStore_addThenGet rfl rfl (by decide) (by decide) rfl
  exact ⟨out, g, h1, h2, h3, h5, h6, h9⟩

/-! ## Middlewares and routes registered by `New` -/

/-- Claim C7. The router of every plugin built by `New` has received, in this order: one `Use`
call with tracing, logging, kubeconfig loading (context enrichment) and `secure.Middleware`
(authorization), then the five CRUD routes. So the middleware chain is tracing, logging,
context enrichment, authorization; authorization comes after context enrichment and was
registered before every route handler; and each of the five routes runs that same chain in
front of its handler. -/
theorem middleware_order_is_fixed {σ S : Type} (ns : String) (service : Service σ S) :
    (New ns service).router.registrations =
      [ .use [.tracing, .logging, .kubeconfigLoading, .secure],
        .handle ⟨"v1/configs", "GET", 200, .handleConfigList⟩,
        .handle ⟨"v1/configs", "POST", 201, .handleConfigCreate⟩,
        .handle ⟨"v1/configs/{name}", "GET", 200, .handleConfigGet⟩,
        .handle ⟨"v1/configs/{name}", "PUT", 200, .handleConfigUpdate⟩,
        .handle ⟨"v1/configs/{name}", "DELETE", 204, .handleConfigDelete⟩ ] ∧
    (New ns service).router.middlewares = [.tracing, .logging, .kubeconfigLoading, .secure] ∧
    (New ns service).router.middlewares.indexOf Middleware.kubeconfigLoading
      < (New ns service).router.middlewares.indexOf Middleware.secure ∧
    (New ns service).router.routes.map ((New ns service).router.pipeline) =
      [ [.inl .tracing, .inl .logging, .inl .kubeconfigLoading, .inl .secure,
          .inr .handleConfigList],
        [.inl .tracing, .inl .logging, .inl .kubeconfigLoading, .inl .secure,
          .inr .handleConfigCreate],
        [.inl .tracing, .inl .logging, .inl .kubeconfigLoading, .inl .secure,
          .inr .handleConfigGet],
        [.inl .tracing, .inl .logging, .inl .kubeconfigLoading, .inl .secure,
          .inr .handleConfigUpdate],
        [.inl .tracing, .inl .logging, .inl .kubeconfigLoading, .inl .secure,
          .inr .handleConfigDelete] ] := by
  have hm : (New ns service).router.middlewares
      = [.tracing, .logging, .kubeconfigLoading, .secure] := rfl
  refine ⟨?_, hm, ?_, ?_⟩
  · simp [New, NewJSONRouter, JSONRouter.Use, JSONRouter.Subroute, Subrouter.Subroute,
      Subrouter.Handle, Subrouter.HandleWithCode, StatusOK, StatusCreated, StatusNoContent]
  · rw [hm]; decide
  · rfl

/-! ## The watcher callbacks -/

/-- For every object that is not the nil interface, each watcher callback returns: nil for a
`*config.Object`, and otherwise the error that names the rejected object. -/
theorem watcher_returns_on_present_object {S : Type} (w : ConfigWatcher) (o : Object S)
    (m : StaticMetadata) :
    w.Add (.config o) = .returned none [("Added resource", o.StaticMeta.Name)] ∧
    w.Add (.other m : ResourceObject S) = .returned (some (notConfigObjectError m)) [] ∧
    w.Delete (.config o) = .returned none [("Deleted resource", o.StaticMeta.Name)] ∧
    w.Delete (.other m : ResourceObject S) = .returned (some (notConfigObjectError m)) [] ∧
    w.Sync (.config o) = .returned none [("Possible resource update", o.StaticMeta.Name)] ∧
    w.Sync (.other m : ResourceObject S) = .returned (some (notConfigObjectError m)) [] ∧
    w.Update (.config o) (.config o) = .returned none [("Updated resource", o.StaticMeta.Name)] ∧
    w.Update (.other m) (.config o) = .returned (some (notConfigObjectError m)) [] ∧
    w.Update (.config o) (.other m) = .returned (some (notConfigObjectError m)) [] :=
  ⟨rfl, rfl, rfl, rfl, rfl, rfl, rfl, rfl, rfl⟩

/-- Claim C8 at the nil object: the type assertion fails and the error path calls
`rObj.StaticMetadata()` on the nil interface, so `Add`, `Delete`, `Sync` and `Update` (on a nil
old or a nil new object) end in a run-time panic instead of returning an error. -/
theorem watcher_panics_on_nil_object :
    ConfigWatcher.Add {} (.nil : ResourceObject String) = .panicked ∧
    ConfigWatcher.Delete {} (.nil : ResourceObject String) = .panicked ∧
    ConfigWatcher.Sync {} (.nil : ResourceObject String) = .panicked ∧
    ConfigWatcher.Update {} (.nil : ResourceObject String) (.config sampleObject) = .panicked ∧
    ConfigWatcher.Update {} (.config sampleObject) (.nil : ResourceObject String) = .panicked :=
  ⟨rfl, rfl, rfl, rfl, rfl⟩

/-! ## Store errors in List -/

/-- Whatever error `List` reports, `handleConfigList` returns that error value itself, next to
the list pointer `List` returned: it never builds a plugin error from it. -/
theorem list_returns_store_error_unchanged {σ S : Type} (p : Plugin σ S) (req : JSONRequest)
    (st st1 st2 : σ) (svc : ConfigService σ S) (fs : List String)
    (l : Option (TypedStoreList S)) (e : GoError)
    (hsvc : p.service.GetConfigService st = (.ok svc, st1))
    (hfs : fs = if (req.Query.Get "filters").length > 0
      then stringsSplit (req.Query.Get "filters") ',' else [])
    (hlist : svc.List p.namespace_ fs st1 = ((l, some e), st2)) :
    (handleConfigList p req st).err = some (.unchanged e) ∧
    (handleConfigList p req st).resp = .list l := by
  subst hfs
  simp [handleConfigList, hsvc, hlist]

/-- Claim C9 at a store whose operations fail with `403 forbidden`: `handleConfigList` returns
the store's error value as it is, with a list response, where `handleConfigGet` returns the nil
response and the plugin error `403 forbidden`. -/
theorem list_store_error_is_not_wrapped :
    (handleConfigList
        (New "ns1" (PluginService.mk
          (failingStore { Error := "forbidden", StatusCode := some 403 })).toService)
        ⟨[], [("name", "cfg1")], .ok ""⟩ ()).err
      = some (.unchanged { Error := "forbidden", StatusCode := some 403 }) ∧
    (handleConfigList
        (New "ns1" (PluginService.mk
          (failingStore { Error := "forbidden", StatusCode := some 403 })).toService)
        ⟨[], [("name", "cfg1")], .ok ""⟩ ()).err
      ≠ some (.pluginError 403 "forbidden") ∧
    (handleConfigList
        (New "ns1" (PluginService.mk
          (failingStore { Error := "forbidden", StatusCode := some 403 })).toService)
        ⟨[], [("name", "cfg1")], .ok ""⟩ ()).resp = .list none ∧
    (handleConfigGet
        (New "ns1" (PluginService.mk
          (failingStore { Error := "forbidden", StatusCode := some 403 })).toService)
        ⟨[], [("name", "cfg1")], .ok ""⟩ ()).map (fun out => (out.resp, out.err))
      = some (.nil, some (.pluginError 403 "forbidden")) := by
  refine ⟨?_, ?_, ?_, ?_⟩ <;> decide

end O11yConfig
